import Mathlib

/-!
Verification development for the LiveCue screenshot/conversation processing
pipeline (`electron/ProcessingHelper.ts`).

The pipeline's parsing core works on raw model-response text.  We embed it
shallowly: strings become `List Char`, and each JavaScript regular expression
used by the source is translated into an explicit, executable scanner with the
same matching semantics (leftmost match, lazy/greedy quantifier behaviour,
`.` excluding line terminators, backtracking where the pattern requires it).
Stateful orchestration (abort controllers, UI events, view state) becomes a
pure state-transition model.  Network calls and `JSON.parse` are oracles
passed in as parameters.
-/

set_option maxHeartbeats 1000000

namespace LiveCue

/-! Character classes, with JavaScript regex semantics. -/

/-- The backtick character. -/
def btick : Char := Char.ofNat 96

/-- The apostrophe character. -/
def apos : Char := Char.ofNat 39

/-- The opening curly-brace character. -/
def obrace : Char := Char.ofNat 123

/-- JavaScript line terminators: what `.` (without the `s` flag) does NOT match. -/
def isLineTerm (c : Char) : Bool :=
  c = '\n' || c = '\r' || c = '\u2028' || c = '\u2029'

/-- JavaScript `\w`: the characters `[A-Za-z0-9_]`. -/
def isWordChar (c : Char) : Bool := c.isAlphanum || c = '_'

/-- JavaScript `\s` and `String.prototype.trim` whitespace (the code points
that occur in practice: space, tab, LF, VT, FF, CR, NBSP, BOM, LS, PS). -/
def isJsSpace (c : Char) : Bool :=
  c = ' ' || c = '\t' || c = '\n' || c = '\r' || c = '\u000B' || c = '\u000C' ||
  c = '\u00A0' || c = '\uFEFF' || c = '\u2028' || c = '\u2029'

/-- Model of `String.prototype.trim`: strip leading and trailing whitespace. -/
def trimChars (s : List Char) : List Char :=
  ((s.dropWhile isJsSpace).reverse.dropWhile isJsSpace).reverse

/-- Substring test: does `pat` occur (as a contiguous run) anywhere in `s`?
Mirrors JavaScript `String.prototype.includes`. -/
def containsB (pat : List Char) : List Char → Bool
  | [] => pat.isPrefixOf []
  | s@(_ :: rest) => pat.isPrefixOf s || containsB pat rest

/-! Literal tokens of the step-block format, taken from the `stepPattern`
regex in `generateSolutionsHelper`.  In the source the pattern is
`---STEP_TITLE: (.*?)` then a newline, `---STEP_EXPLANATION: ([\s\S]*?)`
with lookahead `(?=\n---STEP_CODE:)`, then `\n---STEP_CODE:\n`, an opening
fence of three backticks with optional `(?:\w+)?` info string and a newline,
the lazy code capture `([\s\S]*?)`, and a closing fence. -/

/-- Literal `"---STEP_TITLE: "`. -/
def L1 : List Char := "---STEP_TITLE: ".data

/-- Literal `"\n---STEP_EXPLANATION: "`. -/
def LE : List Char := "\n---STEP_EXPLANATION: ".data

/-- Literal `"\n---STEP_CODE:\n"` followed by the opening fence. -/
def L2 : List Char := "\n---STEP_CODE:\n```".data

/-- Literal `"\n---STEP_CODE:"` (the lookahead token). -/
def L2h : List Char := "\n---STEP_CODE:".data

/-- A code fence: three backticks. -/
def F : List Char := "```".data

/-! The step-token scanner: a faithful model of one `stepPattern.exec` step.
The lazy `(.*?)` for the title cannot cross a line terminator and stops at
the first position where `\n---STEP_EXPLANATION: ` follows; the lazy
`([\s\S]*?)` for the explanation stops at the first position where the whole
remainder of the pattern matches (full backtracking); `(?:\w+)?\n` after the
opening fence resolves to the maximal word-character run followed by a
newline; the lazy code capture stops at the first closing fence. -/

/-- Scan the title capture: consume characters (failing on a line terminator)
until `LE` is a prefix of the remainder; return the title and the text
after `LE`. -/
def titleScan : List Char → Option (List Char × List Char)
  | [] => none
  | s@(c :: rest) =>
    if LE.isPrefixOf s then some ([], s.drop LE.length)
    else if isLineTerm c then none
    else match titleScan rest with
      | some (t, r) => some (c :: t, r)
      | none => none

/-- Scan the code capture: consume any characters until a closing fence `F` is
a prefix of the remainder; return the code and the text after the fence. -/
def codeScan : List Char → Option (List Char × List Char)
  | [] => none
  | s@(c :: rest) =>
    if F.isPrefixOf s then some ([], s.drop F.length)
    else match codeScan rest with
      | some (cd, r) => some (c :: cd, r)
      | none => none

/-- Model of `(?:\w+)?\n` followed by the lazy code capture and closing fence:
skip the maximal word run (the fence info string), require a newline, then
scan the code. -/
def codeScanStart (s : List Char) : Option (List Char × List Char) :=
  let k := (s.takeWhile isWordChar).length
  match s.drop k with
  | c :: r => if c = '\n' then codeScan r else none
  | [] => none

/-- Scan the explanation capture: consume any characters until the first
position where `L2` is a prefix AND the rest of the pattern (fence info,
newline, code, closing fence) matches; return explanation, code and rest. -/
def explScan : List Char → Option (List Char × List Char × List Char)
  | [] => none
  | s@(c :: rest) =>
    if L2.isPrefixOf s then
      match codeScanStart (s.drop L2.length) with
      | some (cd, r) => some ([], cd, r)
      | none =>
        match explScan rest with
        | some (e, cd, r) => some (c :: e, cd, r)
        | none => none
    else
      match explScan rest with
      | some (e, cd, r) => some (c :: e, cd, r)
      | none => none

/-- Attempt to match the whole `stepPattern` at the start of `s`; on success
return the three raw captures and the text following the match. -/
def matchStepAt (s : List Char) : Option ((List Char × List Char × List Char) × List Char) :=
  if L1.isPrefixOf s then
    match titleScan (s.drop L1.length) with
    | some (t, r1) =>
      match explScan r1 with
      | some (e, cd, r2) => some ((t, e, cd), r2)
      | none => none
    | none => none
  else none

/-- Leftmost match: try `matchStepAt` at every start position, left to right
(the scanning loop of `RegExp.prototype.exec`). -/
def findFirstMatch : List Char → Option ((List Char × List Char × List Char) × List Char)
  | [] => matchStepAt []
  | s@(_ :: rest) =>
    match matchStepAt s with
    | some r => some r
    | none => findFirstMatch rest

/-- One extracted solution step, `SolutionStep = { title, explanation, code }`
in the source. -/
structure SolStep where
  title : List Char
  explanation : List Char
  code : List Char
deriving DecidableEq, Repr, Inhabited

/-- Model of the `while ((match = stepPattern.exec(responseContent)) !== null)`
loop: each round finds the leftmost match, pushes the trimmed captures, and
resumes after the match.  Fuel makes the recursion structural; `s.length + 1`
fuel is always sufficient because every match consumes at least `L1`. -/
def extractStepsAux : Nat → List Char → List SolStep
  | 0, _ => []
  | fuel + 1, s =>
    match findFirstMatch s with
    | none => []
    | some ((t, e, cd), rest) =>
      ⟨trimChars t, trimChars e, trimChars cd⟩ :: extractStepsAux fuel rest

/-- All steps extracted by the structured step-token regex, in order. -/
def extractStepsList (s : List Char) : List SolStep :=
  extractStepsAux (s.length + 1) s

/-! Generic helper lemmas about prefixes, suffixes and `containsB`. -/

theorem isPrefixOf_append_self (a b : List Char) : a.isPrefixOf (a ++ b) = true := by
  simp [List.isPrefixOf_iff_prefix, List.prefix_append]

theorem containsB_suffix_false {pat s d : List Char} (h : containsB pat s = false)
    (hd : d <:+ s) : pat.isPrefixOf d = false := by
  induction s with
  | nil =>
    rw [List.suffix_nil.mp hd]
    simpa [containsB] using h
  | cons c rest ih =>
    rw [containsB, Bool.or_eq_false_iff] at h
    rcases List.suffix_cons_iff.mp hd with rfl | hd2
    · exact h.1
    · exact ih h.2 hd2

theorem containsB_mono {pat pat2 s : List Char} (hp : pat2 <+: pat)
    (h : containsB pat2 s = false) : containsB pat s = false := by
  induction s with
  | nil =>
    cases hpat : pat with
    | nil =>
      rw [hpat] at hp
      rw [List.prefix_nil.mp hp] at h
      simp [containsB] at h
    | cons c t => simp [containsB, List.isPrefixOf]
  | cons c rest ih =>
    rw [containsB, Bool.or_eq_false_iff] at h
    rw [containsB, Bool.or_eq_false_iff]
    refine ⟨?_, ih h.2⟩
    by_contra hcon
    rw [Bool.not_eq_false, List.isPrefixOf_iff_prefix] at hcon
    have := List.isPrefixOf_iff_prefix.mpr (hp.trans hcon)
    rw [h.1] at this
    exact Bool.false_ne_true this

theorem prefix_of_append_of_le {p a b : List Char} (h : p <+: a ++ b)
    (hl : p.length ≤ a.length) : p <+: a :=
  List.prefix_of_prefix_length_le h (List.prefix_append a b) hl

theorem eq_of_prefix_of_length_eq {p q X : List Char} (hp : p <+: X) (hq : q <+: X)
    (hl : p.length = q.length) : p = q := by
  rw [List.prefix_iff_eq_take] at hp hq
  rw [hp, hq, hl]

theorem drop_prefix_of_prefix_append {p a b : List Char} (h : p <+: a ++ b)
    (hl : a.length ≤ p.length) : p.drop a.length <+: b := by
  have hp := List.prefix_iff_eq_take.mp h
  have : p.drop a.length = b.take (p.length - a.length) := by
    rw [hp]
    rw [List.drop_take]
    congr 1
    · rw [List.length_take]
      have hle : p.length ≤ (a ++ b).length := h.length_le
      omega
    · exact List.drop_left a b
  rw [this]
  exact List.take_prefix _ b

/-- If a literal has no border (no proper nonempty suffix equal to a prefix),
does not occur inside `g`, and `X` begins with the literal, then the literal
cannot be a prefix of `d ++ X` for any nonempty suffix `d` of `g`: occurrences
cannot straddle the boundary. -/
theorem lit_not_prefixOf_mid {lit g X d : List Char}
    (hnb : ∀ m, m < lit.length → 0 < m → lit.drop m ≠ lit.take (lit.length - m))
    (hg : containsB lit g = false) (hX : lit <+: X)
    (hd : d <:+ g) (hne : d ≠ []) : lit.isPrefixOf (d ++ X) = false := by
  by_contra hcon
  rw [Bool.not_eq_false, List.isPrefixOf_iff_prefix] at hcon
  by_cases hlen : lit.length ≤ d.length
  · have hpd : lit <+: d := prefix_of_append_of_le hcon hlen
    have hf := containsB_suffix_false hg hd
    rw [List.isPrefixOf_iff_prefix.mpr hpd] at hf
    simp at hf
  · push_neg at hlen
    have h1 : lit.drop d.length <+: X := drop_prefix_of_prefix_append hcon (le_of_lt hlen)
    have h2 : lit.take (lit.length - d.length) <+: X :=
      (List.take_prefix _ lit).trans hX
    have heq : lit.drop d.length = lit.take (lit.length - d.length) := by
      refine eq_of_prefix_of_length_eq h1 h2 ?_
      rw [List.length_drop, List.length_take]
      have : lit.length - d.length ≤ lit.length := Nat.sub_le _ _
      omega
    have hpos : 0 < d.length := List.length_pos.mpr hne
    exact hnb d.length hlen hpos heq

/-- The fence literal has a border, so occurrences of a fence can straddle the
code/fence boundary exactly when the code itself ends with a backtick; given
that the code contains no fence and does not end with a backtick, a fence is
not a prefix of `d ++ X` for any nonempty suffix `d` of the code. -/
theorem F_not_prefixOf_mid {code X d : List Char}
    (h1 : containsB F code = false) (h2 : List.isSuffixOf [btick] code = false)
    (hd : d <:+ code) (hne : d ≠ []) :
    F.isPrefixOf (d ++ X) = false := by
  by_contra hcon
  rw [Bool.not_eq_false, List.isPrefixOf_iff_prefix] at hcon
  by_cases hlen : F.length ≤ d.length
  · have hpd : F <+: d := prefix_of_append_of_le hcon hlen
    have hf := containsB_suffix_false h1 hd
    rw [List.isPrefixOf_iff_prefix.mpr hpd] at hf
    simp at hf
  · push_neg at hlen
    have hdp : d <+: F :=
      List.prefix_of_prefix_length_le (List.prefix_append d X) hcon (le_of_lt hlen)
    have hall : ∀ x ∈ F, x = btick := by decide
    rcases List.eq_nil_or_concat d with rfl | ⟨init, a, rfl⟩
    · exact hne rfl
    · simp only [List.concat_eq_append] at hd hdp
      have ha : a = btick := hall a (hdp.subset (by simp))
      have hsuf : [btick] <:+ init ++ [a] := ⟨init, by rw [ha]⟩
      have : List.isSuffixOf [btick] code = true :=
        List.isSuffixOf_iff_suffix.mpr (hsuf.trans hd)
      rw [h2] at this
      exact Bool.false_ne_true this

/-! Head decompositions of the literals, and border refutations. -/

theorem LE_cons : LE = '\n' :: "---STEP_EXPLANATION: ".data := rfl

theorem L2h_prefix_L2 : L2h <+: L2 := ⟨"\n```".data, by decide⟩

theorem L1_no_border :
    ∀ m, m < L1.length → 0 < m → L1.drop m ≠ L1.take (L1.length - m) := by decide

theorem L2_no_border :
    ∀ m, m < L2.length → 0 < m → L2.drop m ≠ L2.take (L2.length - m) := by decide

/-! Correctness of the scanners on rendered block text. -/

theorem titleScan_prefix {s : List Char} (h : LE.isPrefixOf s = true) :
    titleScan s = some ([], s.drop LE.length) := by
  cases s with
  | nil => rw [LE_cons] at h; simp [List.isPrefixOf] at h
  | cons c rest => rw [titleScan]; simp [h]

theorem titleScan_append {title : List Char} (R : List Char)
    (h : ∀ c ∈ title, isLineTerm c = false) :
    titleScan (title ++ (LE ++ R)) = some (title, R) := by
  induction title with
  | nil =>
    rw [List.nil_append, titleScan_prefix (isPrefixOf_append_self LE R), List.drop_left]
  | cons c t ih =>
    have hc : isLineTerm c = false := h c (by simp)
    have hne : LE.isPrefixOf (c :: (t ++ (LE ++ R))) = false := by
      rw [LE_cons]
      simp only [List.isPrefixOf, Bool.and_eq_false_iff]
      left
      have : ¬ c = '\n' := by
        intro hcc; rw [hcc] at hc; simp [isLineTerm] at hc
      simp [beq_eq_false_iff_ne, Ne, this]
      intro hcc; exact this hcc.symm
    rw [List.cons_append, titleScan, hne]
    simp only [Bool.false_eq_true, if_false, hc]
    rw [ih (fun x hx => h x (by simp [hx]))]

theorem codeScan_prefix {s : List Char} (h : F.isPrefixOf s = true) :
    codeScan s = some ([], s.drop F.length) := by
  cases s with
  | nil => simp [List.isPrefixOf, F] at h
  | cons c rest => rw [codeScan]; simp [h]

theorem codeScan_append {code : List Char} (tail : List Char)
    (h1 : containsB F code = false) (h2 : List.isSuffixOf [btick] code = false) :
    codeScan (code ++ (F ++ tail)) = some (code, tail) := by
  induction code with
  | nil =>
    rw [List.nil_append, codeScan_prefix (isPrefixOf_append_self F _), List.drop_left]
  | cons c t ih =>
    have hne : F.isPrefixOf ((c :: t) ++ (F ++ tail)) = false :=
      F_not_prefixOf_mid h1 h2 (List.suffix_refl _) (by simp)
    have h1t : containsB F t = false := by
      rw [containsB, Bool.or_eq_false_iff] at h1; exact h1.2
    have h2t : List.isSuffixOf [btick] t = false := by
      by_contra hcon
      rw [Bool.not_eq_false, List.isSuffixOf_iff_suffix] at hcon
      have : List.isSuffixOf [btick] (c :: t) = true :=
        List.isSuffixOf_iff_suffix.mpr (hcon.trans (List.suffix_cons c t))
      rw [h2] at this; exact Bool.false_ne_true this
    rw [List.cons_append] at hne
    rw [List.cons_append, codeScan, hne]
    simp only [Bool.false_eq_true, if_false]
    rw [ih h1t h2t]

theorem takeWhile_all_append {p : Char → Bool} {l : List Char} {x : Char} {r : List Char}
    (hl : ∀ c ∈ l, p c = true) (hx : p x = false) :
    (l ++ x :: r).takeWhile p = l := by
  induction l with
  | nil => simp [List.takeWhile_cons, hx]
  | cons c t ih =>
    rw [List.cons_append, List.takeWhile_cons, hl c (by simp)]
    simp only [if_true]
    rw [ih (fun y hy => hl y (by simp [hy]))]

theorem codeScanStart_append {lang : List Char} (code tail : List Char)
    (hlang : ∀ c ∈ lang, isWordChar c = true)
    (h1 : containsB F code = false) (h2 : List.isSuffixOf [btick] code = false) :
    codeScanStart (lang ++ '\n' :: (code ++ (F ++ tail))) = some (code, tail) := by
  rw [codeScanStart]
  have hw : isWordChar '\n' = false := by decide
  rw [takeWhile_all_append hlang hw]
  rw [List.drop_left]
  simp only [if_true, reduceIte]
  exact codeScan_append tail h1 h2

theorem explScan_prefix {s : List Char} {cd r : List Char} (h : L2.isPrefixOf s = true)
    (hcs : codeScanStart (s.drop L2.length) = some (cd, r)) :
    explScan s = some ([], cd, r) := by
  cases s with
  | nil =>
    have : L2 = '\n' :: "---STEP_CODE:\n```".data := rfl
    rw [this] at h; simp [List.isPrefixOf] at h
  | cons c rest => rw [explScan]; simp [h, hcs]

theorem explScan_append {expl : List Char} (Z cd tail : List Char)
    (hno : containsB L2h expl = false)
    (hcs : codeScanStart Z = some (cd, tail)) :
    explScan (expl ++ (L2 ++ Z)) = some (expl, cd, tail) := by
  induction expl with
  | nil =>
    rw [List.nil_append]
    refine explScan_prefix (isPrefixOf_append_self L2 Z) ?_
    rw [List.drop_left]
    exact hcs
  | cons c t ih =>
    have hnoL2 : containsB L2 (c :: t) = false := containsB_mono L2h_prefix_L2 hno
    have hne : L2.isPrefixOf ((c :: t) ++ (L2 ++ Z)) = false :=
      lit_not_prefixOf_mid L2_no_border hnoL2 (List.prefix_append L2 Z)
        (List.suffix_refl _) (by simp)
    have hnot : containsB L2h t = false := by
      rw [containsB, Bool.or_eq_false_iff] at hno; exact hno.2
    rw [List.cons_append] at hne
    rw [List.cons_append, explScan, hne]
    simp only [Bool.false_eq_true, if_false]
    rw [ih hnot]

/-! Well-formed step blocks and their rendering into response text. -/

/-- The data of one step block as the model was asked to emit it: title line,
explanation text, fence info string, code body. -/
structure RawStep where
  title : List Char
  explanation : List Char
  lang : List Char
  code : List Char
deriving DecidableEq, Repr

/-- Render a step block in the exact token format requested by the solution
prompt (`---STEP_TITLE: ...`, `---STEP_EXPLANATION: ...`, `---STEP_CODE:`
followed by a fenced code block). -/
def render (b : RawStep) : List Char :=
  L1 ++ b.title ++ LE ++ b.explanation ++ L2 ++ b.lang ++ '\n' :: b.code ++ F

/-- Well-formedness of a step block: the title stays on one line, the
explanation does not contain the `\n---STEP_CODE:` token, the fence info
string is made of word characters, and the code contains no fence and does
not end in a backtick (otherwise the fenced block would close early). -/
def wfBlock (b : RawStep) : Bool :=
  b.title.all (fun c => !isLineTerm c) &&
  !containsB L2h b.explanation &&
  b.lang.all isWordChar &&
  (!containsB F b.code && !List.isSuffixOf [btick] b.code)

/-- Well-formedness of the filler text around and between step blocks: it must
not contain the `---STEP_TITLE: ` token. -/
def wfGap (g : List Char) : Bool := !containsB L1 g

theorem render_append (b : RawStep) (tail : List Char) :
    render b ++ tail =
      L1 ++ (b.title ++ (LE ++ (b.explanation ++
        (L2 ++ (b.lang ++ '\n' :: (b.code ++ (F ++ tail))))))) := by
  simp [render, List.append_assoc]

/-- At the start of a well-formed rendered block, the step pattern matches and
captures exactly the block's title, explanation and code, consuming exactly
the rendered block. -/
theorem matchStepAt_render (b : RawStep) (tail : List Char) (hb : wfBlock b = true) :
    matchStepAt (render b ++ tail) =
      some ((b.title, b.explanation, b.code), tail) := by
  rw [wfBlock, Bool.and_eq_true, Bool.and_eq_true, Bool.and_eq_true, Bool.and_eq_true] at hb
  obtain ⟨⟨⟨ht, he⟩, hl⟩, hc1, hc2⟩ := hb
  rw [Bool.not_eq_true'] at he hc1 hc2
  rw [render_append, matchStepAt]
  rw [isPrefixOf_append_self]
  simp only [if_true, reduceIte]
  rw [List.drop_left]
  simp only [titleScan_append _ (by
    intro c hc
    have := List.all_eq_true.mp ht c hc
    simpa using this)]
  simp only [explScan_append _ _ _ he (codeScanStart_append b.code tail (by
    intro c hc
    exact List.all_eq_true.mp hl c hc) hc1 hc2)]

/-! Length bounds: every successful match consumes at least the `L1` token,
so the scanning loop terminates and the fuel `s.length + 1` is adequate. -/

theorem titleScan_length : ∀ {s t r : List Char}, titleScan s = some (t, r) → r.length ≤ s.length := by
  intro s
  induction s with
  | nil => intro t r h; simp [titleScan] at h
  | cons c rest ih =>
    intro t r h
    rw [titleScan] at h
    split at h
    · rw [Option.some.injEq, Prod.mk.injEq] at h
      rw [← h.2, List.length_drop]
      omega
    · split at h
      · exact absurd h (by simp)
      · split at h
        · rename_i t2 r2 heq
          rw [Option.some.injEq, Prod.mk.injEq] at h
          rw [← h.2]
          calc r2.length ≤ rest.length := ih heq
            _ ≤ (c :: rest).length := by simp
        · exact absurd h (by simp)

theorem codeScan_length : ∀ {s cd r : List Char}, codeScan s = some (cd, r) → r.length ≤ s.length := by
  intro s
  induction s with
  | nil => intro cd r h; simp [codeScan] at h
  | cons c rest ih =>
    intro cd r h
    rw [codeScan] at h
    split at h
    · rw [Option.some.injEq, Prod.mk.injEq] at h
      rw [← h.2, List.length_drop]
      omega
    · split at h
      · rename_i cd2 r2 heq
        rw [Option.some.injEq, Prod.mk.injEq] at h
        rw [← h.2]
        calc r2.length ≤ rest.length := ih heq
          _ ≤ (c :: rest).length := by simp
      · exact absurd h (by simp)

theorem codeScanStart_length {s cd r : List Char} (h : codeScanStart s = some (cd, r)) :
    r.length ≤ s.length := by
  rw [codeScanStart] at h
  split at h
  · rename_i c r2 heq
    split at h
    · have h1 : r.length ≤ r2.length := codeScan_length h
      have h2 : r2.length < (c :: r2).length := by simp
      have h3 : (c :: r2).length ≤ s.length := by
        rw [← heq, List.length_drop]
        omega
      omega
    · exact absurd h (by simp)
  · exact absurd h (by simp)

theorem explScan_length : ∀ {s e cd r : List Char},
    explScan s = some (e, cd, r) → r.length ≤ s.length := by
  intro s
  induction s with
  | nil => intro e cd r h; simp [explScan] at h
  | cons c rest ih =>
    intro e cd r h
    rw [explScan] at h
    split at h
    · split at h
      · rename_i cd2 r2 heq
        rw [Option.some.injEq, Prod.mk.injEq, Prod.mk.injEq] at h
        have h1 : r2.length ≤ ((c :: rest).drop L2.length).length := codeScanStart_length heq
        rw [← h.2.2]
        rw [List.length_drop] at h1
        omega
      · split at h
        · rename_i e2 cd2 r2 heq
          rw [Option.some.injEq, Prod.mk.injEq, Prod.mk.injEq] at h
          rw [← h.2.2]
          calc r2.length ≤ rest.length := ih heq
            _ ≤ (c :: rest).length := by simp
        · exact absurd h (by simp)
    · split at h
      · rename_i e2 cd2 r2 heq
        rw [Option.some.injEq, Prod.mk.injEq, Prod.mk.injEq] at h
        rw [← h.2.2]
        calc r2.length ≤ rest.length := ih heq
          _ ≤ (c :: rest).length := by simp
      · exact absurd h (by simp)

theorem matchStepAt_length {s : List Char} {x : List Char × List Char × List Char}
    {rest : List Char} (h : matchStepAt s = some (x, rest)) : rest.length < s.length := by
  rw [matchStepAt] at h
  split at h
  · rename_i hL1
    have hs : L1.length ≤ s.length :=
      List.IsPrefix.length_le (List.isPrefixOf_iff_prefix.mp hL1)
    have hL1len : L1.length = 15 := rfl
    split at h
    · rename_i t r1 heq1
      split at h
      · rename_i e cd r2 heq2
        rw [Option.some.injEq, Prod.mk.injEq] at h
        have h1 : r2.length ≤ r1.length := explScan_length heq2
        have h2 : r1.length ≤ (s.drop L1.length).length := titleScan_length heq1
        rw [List.length_drop] at h2
        rw [← h.2]
        omega
      · exact absurd h (by simp)
    · exact absurd h (by simp)
  · exact absurd h (by simp)

theorem findFirstMatch_length : ∀ {s : List Char} {x : List Char × List Char × List Char}
    {rest : List Char}, findFirstMatch s = some (x, rest) → rest.length < s.length := by
  intro s
  induction s with
  | nil =>
    intro x rest h
    rw [findFirstMatch] at h
    exact matchStepAt_length h
  | cons c t ih =>
    intro x rest h
    rw [findFirstMatch] at h
    split at h
    · rename_i r heq
      rw [Option.some.injEq] at h
      subst h
      exact matchStepAt_length heq
    · calc rest.length < t.length := ih h
        _ < (c :: t).length := by simp

/-! Fuel adequacy and unfolding equations for the extraction loop. -/

theorem extractStepsAux_succ_none {fuel : Nat} {s : List Char}
    (h : findFirstMatch s = none) : extractStepsAux (fuel + 1) s = [] := by
  rw [extractStepsAux, h]

theorem extractStepsAux_succ_some {fuel : Nat} {s t e cd : List Char} {rest : List Char}
    (h : findFirstMatch s = some ((t, e, cd), rest)) :
    extractStepsAux (fuel + 1) s =
      ⟨trimChars t, trimChars e, trimChars cd⟩ :: extractStepsAux fuel rest := by
  rw [extractStepsAux, h]

theorem extractStepsAux_mono : ∀ (f1 f2 : Nat) (s : List Char),
    s.length < f1 → s.length < f2 → extractStepsAux f1 s = extractStepsAux f2 s := by
  intro f1
  induction f1 with
  | zero => intro f2 s h1; omega
  | succ f1 ih =>
    intro f2 s h1 h2
    cases f2 with
    | zero => omega
    | succ f2 =>
      cases heq : findFirstMatch s with
      | none => rw [extractStepsAux_succ_none heq, extractStepsAux_succ_none heq]
      | some pr =>
        obtain ⟨⟨t, e, cd⟩, rest⟩ := pr
        have hlt : rest.length < s.length := findFirstMatch_length heq
        rw [extractStepsAux_succ_some heq, extractStepsAux_succ_some heq]
        rw [ih f2 rest (by omega) (by omega)]

theorem extractStepsList_nil {s : List Char} (h : findFirstMatch s = none) :
    extractStepsList s = [] := by
  rw [extractStepsList, extractStepsAux_succ_none h]

theorem extractStepsList_cons {s t e cd : List Char} {rest : List Char}
    (h : findFirstMatch s = some ((t, e, cd), rest)) :
    extractStepsList s =
      ⟨trimChars t, trimChars e, trimChars cd⟩ :: extractStepsList rest := by
  rw [extractStepsList, extractStepsAux_succ_some h, extractStepsList]
  have hlt : rest.length < s.length := findFirstMatch_length h
  rw [extractStepsAux_mono s.length (rest.length + 1) rest (by omega) (by omega)]

/-! Scanning across filler text: no match can start inside a well-formed gap. -/

theorem matchStepAt_none_of_not_L1 {s : List Char} (h : L1.isPrefixOf s = false) :
    matchStepAt s = none := by
  rw [matchStepAt, h]
  simp

theorem findFirstMatch_found {s : List Char} {r} (h : matchStepAt s = some r) :
    findFirstMatch s = some r := by
  cases s with
  | nil => rw [findFirstMatch]; exact h
  | cons c t => rw [findFirstMatch, h]

theorem findFirstMatch_skip {g R : List Char}
    (hskip : ∀ d, d <:+ g → d ≠ [] → matchStepAt (d ++ R) = none) :
    findFirstMatch (g ++ R) = findFirstMatch R := by
  induction g with
  | nil => rw [List.nil_append]
  | cons c t ih =>
    have h0 : matchStepAt ((c :: t) ++ R) = none :=
      hskip (c :: t) (List.suffix_refl _) (by simp)
    rw [List.cons_append] at h0
    rw [List.cons_append, findFirstMatch, h0]
    exact ih (fun d hd hne => hskip d (hd.trans (List.suffix_cons c t)) hne)

theorem findFirstMatch_none {g : List Char}
    (hskip : ∀ d, d <:+ g → matchStepAt d = none) :
    findFirstMatch g = none := by
  induction g with
  | nil => rw [findFirstMatch]; exact hskip [] (List.suffix_refl _)
  | cons c t ih =>
    rw [findFirstMatch, hskip (c :: t) (List.suffix_refl _)]
    exact ih (fun d hd => hskip d (hd.trans (List.suffix_cons c t)))

/-! The full response text: filler, then alternating step blocks and filler. -/

/-- A whole response text: leading filler `g0`, then for each pair in `ps` a
rendered step block followed by its trailing filler. -/
def renderAll (g0 : List Char) (ps : List (RawStep × List Char)) : List Char :=
  g0 ++ (ps.map (fun p => render p.1 ++ p.2)).flatten

theorem renderAll_nil (g0 : List Char) : renderAll g0 [] = g0 := by
  simp [renderAll]

theorem renderAll_cons (g0 : List Char) (p : RawStep × List Char)
    (ps : List (RawStep × List Char)) :
    renderAll g0 (p :: ps) = g0 ++ (render p.1 ++ renderAll p.2 ps) := by
  simp [renderAll, List.append_assoc]

/-- The step for a block as the extraction loop produces it. -/
def stepOf (b : RawStep) : SolStep :=
  ⟨trimChars b.title, trimChars b.explanation, trimChars b.code⟩

theorem L1_prefix_render (b : RawStep) (tail : List Char) : L1 <+: render b ++ tail := by
  rw [render_append]
  exact List.prefix_append _ _

/-- Main extraction lemma: on a response made of well-formed step blocks
separated by well-formed filler, the extraction loop returns exactly the
blocks' steps, in order. -/
theorem extractStepsList_renderAll : ∀ (ps : List (RawStep × List Char)) (g0 : List Char),
    wfGap g0 = true → (∀ p ∈ ps, wfBlock p.1 = true ∧ wfGap p.2 = true) →
    extractStepsList (renderAll g0 ps) = ps.map (fun p => stepOf p.1) := by
  intro ps
  induction ps with
  | nil =>
    intro g0 hg0 _
    rw [renderAll_nil, List.map_nil]
    refine extractStepsList_nil (findFirstMatch_none ?_)
    intro d hd
    rw [wfGap, Bool.not_eq_true'] at hg0
    exact matchStepAt_none_of_not_L1 (containsB_suffix_false hg0 hd)
  | cons p ps ih =>
    intro g0 hg0 hps
    obtain ⟨hb, hg⟩ := hps p (by simp)
    rw [renderAll_cons]
    rw [wfGap, Bool.not_eq_true'] at hg0
    have hskip : ∀ d, d <:+ g0 → d ≠ [] →
        matchStepAt (d ++ (render p.1 ++ renderAll p.2 ps)) = none := by
      intro d hd hne
      exact matchStepAt_none_of_not_L1
        (lit_not_prefixOf_mid L1_no_border hg0 (L1_prefix_render p.1 _) hd hne)
    have hfound : findFirstMatch (g0 ++ (render p.1 ++ renderAll p.2 ps)) =
        some ((p.1.title, p.1.explanation, p.1.code), renderAll p.2 ps) := by
      rw [findFirstMatch_skip hskip]
      exact findFirstMatch_found (matchStepAt_render p.1 _ hb)
    rw [extractStepsList_cons hfound]
    rw [ih p.2 hg (fun q hq => hps q (by simp [hq]))]
    rw [List.map_cons]
    rfl

/-- C1: For every solution-generation response text containing N well-formed
step blocks (N ≥ 1) in the token format `---STEP_TITLE: ...` /
`---STEP_EXPLANATION: ...` / `---STEP_CODE:` followed by a fenced code block,
step extraction returns exactly N steps, in order of appearance in the text,
whose title, explanation and code equal the corresponding block texts up to
trimming of surrounding whitespace. -/
theorem C1_step_extraction_exact (g0 : List Char) (ps : List (RawStep × List Char))
    (hg0 : wfGap g0 = true) (hps : ∀ p ∈ ps, wfBlock p.1 = true ∧ wfGap p.2 = true)
    (_hN : ps ≠ []) :
    extractStepsList (renderAll g0 ps) = ps.map (fun p => stepOf p.1) ∧
    (extractStepsList (renderAll g0 ps)).length = ps.length := by
  have h := extractStepsList_renderAll ps g0 hg0 hps
  exact ⟨h, by rw [h, List.length_map]⟩

/-- Concrete leading filler for the C1 witness. -/
def c1g0 : List Char := "Here is the solution.\n".data

/-- First concrete step block for the C1 witness. -/
def c1b1 : RawStep :=
  ⟨"Basic approach".data, "Start simple.".data, "python".data, "x = 1\n".data⟩

/-- Filler between the two witness blocks. -/
def c1g1 : List Char := "\n\n".data

/-- Second concrete step block for the C1 witness. -/
def c1b2 : RawStep :=
  ⟨"Final solution".data, "Optimize.\nDone.".data, [], "y = 2\n".data⟩

/-- Trailing filler for the C1 witness. -/
def c1g2 : List Char := "\nThoughts: good\n".data

/-- The two witness blocks with their trailing filler. -/
def c1ps : List (RawStep × List Char) := [(c1b1, c1g1), (c1b2, c1g2)]

/-- Witness for C1: a concrete two-block response on which the hypotheses hold
and extraction returns exactly the two trimmed steps. -/
theorem C1_step_extraction_exact_witness :
    (wfGap c1g0 = true ∧ (∀ p ∈ c1ps, wfBlock p.1 = true ∧ wfGap p.2 = true) ∧
      c1ps ≠ []) ∧
    extractStepsList (renderAll c1g0 c1ps) = [stepOf c1b1, stepOf c1b2] :=
  ⟨⟨by decide, by decide, by decide⟩,
   ((C1_step_extraction_exact c1g0 c1ps (by decide) (by decide) (by decide)).1).trans rfl⟩

/-! The heading-based fallback of `generateSolutionsHelper` (lines 1098-1130)
and the fenced-code-block matcher `/(three backticks)(?:\w+)?\s*([\s\S]*?)(three backticks)/`. -/

/-- Match the heading alternation `(?:Step \d+:|###|##)` followed by a space
at the start of `s`; return the matched marker text (without the space) and
the rest after the space.  `###` is tried before `##`; when `###` matches but
no space follows, the `##` alternative sees `#` next and fails too, so the
three alternatives never rescue one another. -/
def markerSpaceAt (s : List Char) : Option (List Char × List Char) :=
  if ("Step ".data).isPrefixOf s then
    let r := s.drop 5
    let ds := r.takeWhile Char.isDigit
    if ds.isEmpty then none
    else match r.drop ds.length with
      | c :: c2 :: r2 =>
        if c = ':' && c2 = ' ' then some ("Step ".data ++ ds ++ [':'], r2) else none
      | _ => none
  else if ("### ".data).isPrefixOf s then some ("###".data, s.drop 4)
  else if ("## ".data).isPrefixOf s then some ("##".data, s.drop 3)
  else none

/-- Match `(.*?)(?:\n|$)`: lazy dot (excluding line terminators) up to a
newline (consumed) or the end of input; fails on another line terminator. -/
def restOfLineMatch : List Char → Option (List Char × List Char × List Char)
  | [] => some ([], [], [])
  | c :: r =>
    if c = '\n' then some ([], ['\n'], r)
    else if isLineTerm c then none
    else match restOfLineMatch r with
      | some (co, nl, rest) => some (c :: co, nl, rest)
      | none => none

/-- Match the title regex `(?:Step \d+:|###|##) (.*?)(?:\n|$)` at the start of
`s`; return the FULL matched text (as `String.match` with `/g` does) and the
rest after the match. -/
def headingTitleAt (s : List Char) : Option (List Char × List Char) :=
  match markerSpaceAt s with
  | some (mk, r) =>
    match restOfLineMatch r with
    | some (co, nl, rest) => some (mk ++ ' ' :: co ++ nl, rest)
    | none => none
  | none => none

/-- All full matches of the title regex, scanning left to right and resuming
after each match (`responseContent.match(/.../g)`). -/
def headingTitlesAux : Nat → List Char → List (List Char)
  | 0, _ => []
  | fuel + 1, s =>
    match headingTitleAt s with
    | some (m, rest) => m :: headingTitlesAux fuel rest
    | none => match s with
      | [] => []
      | _ :: t => headingTitlesAux fuel t

/-- The `possibleStepTitles` list (empty models a `null` match result). -/
def headingTitles (s : List Char) : List (List Char) :=
  headingTitlesAux (s.length + 1) s

/-- Match the split separator `(?:Step \d+:|###|##) .*?\n` at the start of
`s` (this one requires the newline); return the rest after it. -/
def sepMatchAt (s : List Char) : Option (List Char) :=
  match markerSpaceAt s with
  | some (_, r) =>
    match restOfLineMatch r with
    | some (_, nl, rest) => if nl.isEmpty then none else some rest
    | none => none
  | none => none

/-- `String.prototype.split` on the separator regex: the pieces between
non-overlapping leftmost separator matches. -/
def splitBySepAux : Nat → List Char → List Char → List (List Char)
  | 0, acc, _ => [acc.reverse]
  | fuel + 1, acc, s =>
    match sepMatchAt s with
    | some rest => acc.reverse :: splitBySepAux fuel [] rest
    | none => match s with
      | [] => [acc.reverse]
      | c :: t => splitBySepAux fuel (c :: acc) t

/-- The `sections` array: `responseContent.split(/(?:Step \d+:|###|##) .*?\n/)`. -/
def splitBySep (s : List Char) : List (List Char) :=
  splitBySepAux (s.length + 1) [] s

/-- `title.replace(/(?:Step \d+:|###|##) /g, "")`: delete every leftmost
non-overlapping marker-plus-space occurrence. -/
def removeMarkersAux : Nat → List Char → List Char
  | 0, s => s
  | fuel + 1, s =>
    match markerSpaceAt s with
    | some (_, rest) => removeMarkersAux fuel rest
    | none => match s with
      | [] => []
      | c :: t => c :: removeMarkersAux fuel t

/-- The marker-stripping replace applied to one matched title. -/
def removeMarkers (s : List Char) : List Char := removeMarkersAux (s.length + 1) s

/-- Match the fenced-block pattern at the start of `s`: opening fence, greedy
optional word run, greedy whitespace run, lazy capture up to the first closing
fence; return the capture and the rest after the closing fence.  A fence
cannot start inside the skipped word/whitespace runs, so no backtracking into
those runs can succeed when the scan for the closing fence fails. -/
def fencedAt (s : List Char) : Option (List Char × List Char) :=
  if F.isPrefixOf s then
    let r1 := (s.drop F.length).dropWhile isWordChar
    let r2 := r1.dropWhile isJsSpace
    codeScan r2
  else none

/-- Leftmost fenced-block match (`content.match(/(fence)...(fence)/)`). -/
def fencedFirstAux : Nat → List Char → Option (List Char × List Char)
  | 0, _ => none
  | fuel + 1, s =>
    match fencedAt s with
    | some r => some r
    | none => match s with
      | [] => none
      | _ :: t => fencedFirstAux fuel t

/-- The first fenced block of the text: its capture and the rest after it. -/
def fencedFirst (s : List Char) : Option (List Char × List Char) :=
  fencedFirstAux (s.length + 1) s

/-- `content.indexOf` of the fence token. -/
def indexOfF : List Char → Option Nat
  | [] => none
  | s@(_ :: t) => if F.isPrefixOf s then some 0 else (indexOfF t).map (· + 1)

/-- One fallback step (the body of the loop at lines 1111-1129): strip markers
from the matched title, find a fenced block in the section, and use the text
before the fence (by `indexOf`) as the explanation. -/
def mkHeadingStep (fullTitle content : List Char) : SolStep :=
  let title := trimChars (removeMarkers fullTitle)
  match fencedFirst content with
  | some (cap, _) =>
    { title := title,
      explanation :=
        match indexOfF content with
        | some i => trimChars (content.take i)
        | none => trimChars content,
      code := trimChars cap }
  | none => { title := title, explanation := trimChars content, code := [] }

/-- The heading-based fallback extraction (lines 1102-1130): pair each matched
heading title with its section of the split text; the loop runs while both
indices are in range, which is exactly a `zip` after dropping the leading
empty section. -/
def headingSteps (content : List Char) : List SolStep :=
  let titles := headingTitles content
  if titles.isEmpty then []
  else
    let sections := splitBySep content
    let startIndex := if trimChars (sections.headD []) = ([] : List Char) then 1 else 0
    (titles.zip (sections.drop startIndex)).map (fun p => mkHeadingStep p.1 p.2)

/-- Step extraction with all fallbacks, exactly as in `generateSolutionsHelper`
(lines 1084-1144): the structured regex, then the heading fallback, then a
single synthesized step whose code is the first fenced block (or empty). -/
def parseSolutionSteps (responseContent : List Char) : List SolStep :=
  let steps1 := extractStepsList responseContent
  if steps1.isEmpty then
    let steps2 := headingSteps responseContent
    if steps2.isEmpty then
      [{ title := "Complete Solution".data,
         explanation := "The solution to the problem.".data,
         code := match fencedFirst responseContent with
           | some (cap, _) => trimChars cap
           | none => [] }]
    else steps2
  else steps1

/-- Lines 1146-1149: the final solution code.  JavaScript `||` treats the
empty string as falsy, so an empty final-step code falls back to the first
fenced block capture (trimmed) or, failing that, the whole response text. -/
def solutionCode (responseContent : List Char) (steps : List SolStep) : List Char :=
  let finalStepCode := if steps.isEmpty then [] else ((steps.getLast?).getD default).code
  if finalStepCode.isEmpty then
    match fencedFirst responseContent with
    | some (cap, _) => trimChars cap
    | none => responseContent
  else finalStepCode

/-! Complexity normalization and the assembled solution result. -/

/-- Match `O\([^)]+\)` (case-insensitive `O`) at the start of `s`: `O` or `o`,
an opening parenthesis, a maximal nonempty run of non-`)` characters, then
`)`; return the matched notation text. -/
def bigONotationAt (s : List Char) : Option (List Char) :=
  match s with
  | c :: p :: r =>
    if (c = 'O' || c = 'o') && p = '(' then
      let run := r.takeWhile (fun x => !(x = ')'))
      if run.isEmpty then none
      else match r.drop run.length with
        | x :: _ => if x = ')' then some (c :: p :: (run ++ [')'])) else none
        | [] => none
    else none
  | _ => none

/-- Leftmost Big-O notation match of `s.match(/O\([^)]+\)/i)`. -/
def bigOFirstAux : Nat → List Char → Option (List Char)
  | 0, _ => none
  | fuel + 1, s =>
    match bigONotationAt s with
    | some m => some m
    | none => match s with
      | [] => none
      | _ :: t => bigOFirstAux fuel t

/-- The first Big-O notation occurring in `s`, if any. -/
def bigOFirst (s : List Char) : Option (List Char) := bigOFirstAux (s.length + 1) s

/-- `s.replace(pat, "")` with a plain-string pattern: delete the leftmost
occurrence only. -/
def replaceFirstAux : Nat → List Char → List Char → List Char
  | 0, _, s => s
  | fuel + 1, pat, s =>
    if pat.isPrefixOf s then s.drop pat.length
    else match s with
      | [] => []
      | c :: t => c :: replaceFirstAux fuel pat t

/-- Delete the leftmost occurrence of `pat` in `s` (JavaScript
`String.prototype.replace` with a string pattern). -/
def replaceFirst (pat s : List Char) : List Char := replaceFirstAux (s.length + 1) pat s

/-- The default time-complexity string (line 1181). -/
def timeDefault : List Char :=
  ("O(n) - Linear time complexity because we only iterate through the array " ++
   "once. Each element is processed exactly one time, and the hashmap lookups " ++
   "are O(1) operations.").data

/-- The default space-complexity string (line 1183). -/
def spaceDefault : List Char :=
  ("O(n) - Linear space complexity because we store elements in the hashmap. " ++
   "In the worst case, we might need to store all elements before finding the " ++
   "solution pair.").data

/-- The complexity normalization of lines 1186-1202 (the space-complexity
branch at 1204-1220 is the same logic): a missing or empty capture yields the
default; otherwise trim, prepend `O(n) - ` when no Big-O notation is present,
and insert a ` - ` separator after the notation when the text has neither a
dash nor the word `because`. -/
def normalizeComplexity (defaultC : List Char) (captured : Option (List Char)) : List Char :=
  match captured with
  | none => defaultC
  | some raw =>
    if raw.isEmpty then defaultC
    else
      let s := trimChars raw
      match bigOFirst s with
      | none => "O(n) - ".data ++ s
      | some nota =>
        if !containsB ['-'] s && !containsB "because".data s then
          nota ++ " - ".data ++ trimChars (replaceFirst nota s)
        else s

/-- The assembled `formattedResponse` (lines 1239-1249). -/
structure SolutionResult where
  code : List Char
  thoughts : List (List Char)
  time_complexity : List Char
  space_complexity : List Char
  conversationId : Option (List Char)
  steps : List SolStep
deriving DecidableEq, Repr

/-- Lines 1222-1237: a defensive block that pushes default steps when the list
is still empty at that point; unreachable in practice because a step is always
synthesized earlier, but kept for fidelity. -/
def ensureSteps (code : List Char) (steps : List SolStep) : List SolStep :=
  if steps.isEmpty then
    let base : List SolStep :=
      [{ title := "Understanding the Problem".data,
         explanation := "Analyzing the problem requirements and constraints.".data,
         code := "// Initial analysis - no code yet".data }]
    if code.isEmpty then base
    else base ++ [{ title := "Complete Solution".data,
                    explanation := "The final implementation that solves the problem.".data,
                    code := code }]
  else steps

/-- Model of the response-parsing tail of `generateSolutionsHelper`
(lines 1084-1251): parse steps with fallbacks, select the solution code,
normalize complexities, and assemble the result.  The thoughts list and the
two complexity captures are oracle inputs: their extraction regexes are
independent of the steps/code logic and of every claim. -/
def formatSolution (responseContent : List Char)
    (thoughts : List (List Char))
    (timeCapture spaceCapture : Option (List Char))
    (conversationId : Option (List Char)) : SolutionResult :=
  let steps := parseSolutionSteps responseContent
  let code := solutionCode responseContent steps
  { code := code,
    thoughts :=
      if thoughts.isEmpty then
        ["Solution approach based on efficiency and readability".data]
      else thoughts,
    time_complexity := normalizeComplexity timeDefault timeCapture,
    space_complexity := normalizeComplexity spaceDefault spaceCapture,
    conversationId := conversationId,
    steps := ensureSteps code steps }

/-! Claims C3, C4 and C8. -/

theorem parseSolutionSteps_ne_nil (rc : List Char) : parseSolutionSteps rc ≠ [] := by
  rw [parseSolutionSteps]
  by_cases e1 : (extractStepsList rc).isEmpty
  · by_cases e2 : (headingSteps rc).isEmpty
    · simp [e1, e2]
    · simp only [e1, if_true, reduceIte, Bool.not_eq_true] at *
      simp [e2]
      intro hcon
      rw [hcon] at e2
      simp at e2
  · simp only [Bool.not_eq_true] at e1
    simp [e1]
    intro hcon
    rw [hcon] at e1
    simp at e1

theorem formatSolution_steps (rc : List Char) (th : List (List Char))
    (tc sc cid : Option (List Char)) :
    (formatSolution rc th tc sc cid).steps = parseSolutionSteps rc := by
  have hne := parseSolutionSteps_ne_nil rc
  simp only [formatSolution, ensureSteps]
  simp [hne]

theorem formatSolution_code (rc : List Char) (th : List (List Char))
    (tc sc cid : Option (List Char)) :
    (formatSolution rc th tc sc cid).code = solutionCode rc (parseSolutionSteps rc) := rfl

/-- C3 counterexample: on the response text `hello` (no step markers, no
fenced block), the synthesized final step has empty code, but the result's
code field is the whole response text — the `finalStepCode || ...` fallback
fires because the empty string is falsy.  So the result's code does NOT equal
the final step's code. -/
theorem C3_result_code_cex :
    (formatSolution "hello".data [] none none none).steps =
      [⟨"Complete Solution".data, "The solution to the problem.".data, []⟩] ∧
    (formatSolution "hello".data [] none none none).code = "hello".data ∧
    ((formatSolution "hello".data [] none none none).steps.getLast?.map SolStep.code) ≠
      some (formatSolution "hello".data [] none none none).code := by
  refine ⟨by decide, by decide, by decide⟩

/-- C3 (amended): every successful SolutionResult has a non-empty steps list;
and the result's code equals the final step's code WHENEVER that code is
non-empty (an empty final-step code instead falls back to the first fenced
block or the raw response text). -/
theorem C3_steps_nonempty_code (rc : List Char) (th : List (List Char))
    (tc sc cid : Option (List Char)) :
    (formatSolution rc th tc sc cid).steps ≠ [] ∧
    (∀ lastStep, (formatSolution rc th tc sc cid).steps.getLast? = some lastStep →
      lastStep.code ≠ [] → (formatSolution rc th tc sc cid).code = lastStep.code) := by
  have hne := parseSolutionSteps_ne_nil rc
  have hsteps := formatSolution_steps rc th tc sc cid
  constructor
  · rw [hsteps]; exact hne
  · intro lastStep hlast hcode
    rw [hsteps] at hlast
    rw [formatSolution_code, solutionCode]
    have hee : (parseSolutionSteps rc).isEmpty = false := by
      simp [List.isEmpty_iff, hne]
    simp only [hee, Bool.false_eq_true, if_false, reduceIte, hlast, Option.getD_some]
    have hce : lastStep.code.isEmpty = false := by
      simp [List.isEmpty_iff, hcode]
    simp [hce]

/-- Concrete response text for the C3 witness: one fenced block, no markers. -/
def c3wText : List Char := "See code:\n```\nz = 3\n```".data

/-- Witness for C3 (amended) at a concrete input whose synthesized final step
has non-empty code. -/
theorem C3_steps_nonempty_code_witness :
    (formatSolution c3wText [] none none none).steps ≠ [] ∧
    (formatSolution c3wText [] none none none).code = "z = 3".data :=
  ⟨(C3_steps_nonempty_code c3wText [] none none none).1,
   (C3_steps_nonempty_code c3wText [] none none none).2
     ⟨"Complete Solution".data, "The solution to the problem.".data, "z = 3".data⟩
     (by decide) (by decide)⟩

/-- A list of the captures of ALL fenced blocks of the text, leftmost first.
This is a spec-side definition, written to the spec's words "the last fenced
code block in the text"; the SOURCE only ever takes the first match. -/
def fencedAllAux : Nat → List Char → List (List Char)
  | 0, _ => []
  | fuel + 1, s =>
    match fencedAt s with
    | some (cap, rest) => cap :: fencedAllAux fuel rest
    | none => match s with
      | [] => []
      | _ :: t => fencedAllAux fuel t

/-- All fenced-block captures of the text (spec-side notion for C4). -/
def specFencedAll (s : List Char) : List (List Char) := fencedAllAux (s.length + 1) s

/-- Concrete counterexample text for C4: two fenced blocks with different
contents and no step markers or headings. -/
def c4text : List Char := "```\nA\n```x\n```\nB\n```".data

/-- C4 counterexample: both extractors find zero steps and fenced blocks
exist, but the single synthesized step's code is the FIRST fence's trimmed
capture (`A`), not the LAST fence's content (`B`). -/
theorem C4_last_fence_cex :
    extractStepsList c4text = [] ∧ headingSteps c4text = [] ∧
    specFencedAll c4text ≠ [] ∧
    (specFencedAll c4text).getLast? = some "B\n".data ∧
    ((parseSolutionSteps c4text).getLast?.map SolStep.code) = some "A".data ∧
    (some ("A".data : List Char) ≠ some ("B\n".data : List Char)) ∧
    (some ("A".data : List Char) ≠ some (trimChars "B\n".data)) := by
  refine ⟨by decide, by decide, by decide, by decide, by decide, by decide, by decide⟩

/-- C4 (amended): if the structured regex and the heading fallback both find
zero steps and the text contains at least one fenced code block, step
extraction returns exactly one synthesized step whose code (also the last
step's code) is the FIRST fenced block's trimmed capture. -/
theorem C4_fallback_first_fence (rc c rest : List Char)
    (h1 : extractStepsList rc = []) (h2 : headingSteps rc = [])
    (h3 : fencedFirst rc = some (c, rest)) :
    parseSolutionSteps rc =
      [⟨"Complete Solution".data, "The solution to the problem.".data, trimChars c⟩] ∧
    ((parseSolutionSteps rc).getLast?.map SolStep.code) = some (trimChars c) := by
  have hmain : parseSolutionSteps rc =
      [⟨"Complete Solution".data, "The solution to the problem.".data, trimChars c⟩] := by
    rw [parseSolutionSteps, h1, h2, h3]
    simp
  exact ⟨hmain, by rw [hmain]; rfl⟩

/-- Witness for C4 (amended) at a concrete one-fence input. -/
theorem C4_fallback_first_fence_witness :
    parseSolutionSteps "text\n```\nq = 0\n```".data =
      [⟨"Complete Solution".data, "The solution to the problem.".data,
        trimChars "q = 0\n".data⟩] :=
  (C4_fallback_first_fence "text\n```\nq = 0\n```".data "q = 0\n".data []
    (by decide) (by decide) (by decide)).1

/-- C8: complexity normalization is idempotent on already-normalized strings:
if the string is trimmed, non-empty, contains Big-O notation `O(...)` and a
`-` separator (e.g. `O(n) - because ...`), normalizing it again returns it
unchanged. -/
theorem C8_normalize_idempotent (s defaultC : List Char)
    (hne : s ≠ []) (htrim : trimChars s = s)
    (hbigO : (bigOFirst s).isSome = true) (hdash : containsB ['-'] s = true) :
    normalizeComplexity defaultC (some s) = s := by
  rw [normalizeComplexity]
  have hee : s.isEmpty = false := by simp [List.isEmpty_iff, hne]
  simp only [hee, Bool.false_eq_true, if_false, reduceIte]
  rw [htrim]
  obtain ⟨nota, hn⟩ := Option.isSome_iff_exists.mp hbigO
  rw [hn]
  simp [hdash]

/-- Witness for C8 at the spec's example shape `O(n) - because ...`. -/
theorem C8_normalize_idempotent_witness :
    normalizeComplexity timeDefault (some "O(n) - because we scan once".data) =
      "O(n) - because we scan once".data :=
  C8_normalize_idempotent "O(n) - because we scan once".data timeDefault
    (by decide) (by decide) (by decide) (by decide)

/-! Extraction-response parsing per provider (`processScreenshotsHelper`). -/

/-- The structured problem description (`ProblemInfo`). -/
structure ProblemInfo where
  problem_statement : List Char
  constraints : Option (List Char)
  example_input : Option (List Char)
  example_output : Option (List Char)
  language : Option (List Char)
deriving DecidableEq, Repr

/-- `responseText.replace(/(three backticks)json|(three backticks)/g, "")`:
delete every leftmost occurrence, the `json`-suffixed alternative first. -/
def stripFencesAux : Nat → List Char → List Char
  | 0, s => s
  | fuel + 1, s =>
    if ("```json".data).isPrefixOf s then stripFencesAux fuel (s.drop 7)
    else if F.isPrefixOf s then stripFencesAux fuel (s.drop 3)
    else match s with
      | [] => []
      | c :: t => c :: stripFencesAux fuel t

/-- Strip all markdown-fence tokens from the extraction response. -/
def stripFences (s : List Char) : List Char := stripFencesAux (s.length + 1) s

/-- The apology prefix (built without a literal apostrophe character). -/
def apology : List Char := "I".data ++ [apos] ++ "m sorry".data

/-- Placeholder string for missing constraints. -/
def noConstraints : List Char := "No specific constraints provided".data

/-- Placeholder string for a missing example input. -/
def noExampleIn : List Char := "No example input provided".data

/-- Placeholder string for a missing example output. -/
def noExampleOut : List Char := "No example output provided".data

/-- The ProblemInfo synthesized by the OpenAI branch when strict JSON parsing
fails (lines 569-578): raw response text as the statement, literal
placeholders, and the configured default language. -/
def synthProblemInfo (responseText language : List Char) : ProblemInfo :=
  { problem_statement := responseText,
    constraints := some noConstraints,
    example_input := some noExampleIn,
    example_output := some noExampleOut,
    language := some language }

/-- The message of the parse-failure result of the OpenAI branch (line 584). -/
def openaiParseFailMsg : List Char :=
  "Failed to parse problem information. Please try again or use clearer screenshots.".data

/-- The generic Gemini extraction failure message (line 675). -/
def geminiExtractFailMsg : List Char :=
  "Failed to process with Gemini API. Please check your API key or try again later.".data

/-- The generic Anthropic extraction failure message (line 771). -/
def anthropicExtractFailMsg : List Char :=
  "Failed to process with Anthropic API. Please check your API key or try again later.".data

/-- OpenAI extraction-response parsing (lines 556-586): strip fences and trim;
an apology prefix or a brace-free text throws, is caught, and yields the fixed
parse-failure message; otherwise strict JSON parsing runs and on parse failure
a ProblemInfo is synthesized from the raw response text.  `jsonParse` is the
`JSON.parse` oracle. -/
def openaiParseExtraction (jsonParse : List Char → Option ProblemInfo)
    (responseText language : List Char) : Except (List Char) ProblemInfo :=
  let jsonText := trimChars (stripFences responseText)
  if apology.isPrefixOf jsonText || !(containsB [obrace] jsonText) then
    .error openaiParseFailMsg
  else match jsonParse jsonText with
    | some pinfo => .ok pinfo
    | none => .ok (synthProblemInfo responseText language)

/-- Gemini extraction-response parsing (lines 667-677): strip fences, trim,
strict JSON parse; ANY failure (including a JSON parse error) is caught by the
surrounding provider-level try/catch and returns the generic Gemini failure
message — there is no synthesis and no apology/brace check. -/
def geminiParseExtraction (jsonParse : List Char → Option ProblemInfo)
    (responseText : List Char) : Except (List Char) ProblemInfo :=
  match jsonParse (trimChars (stripFences responseText)) with
  | some pinfo => .ok pinfo
  | none => .error geminiExtractFailMsg

/-- The Claude rate-limit message (lines 751-756). -/
def claudeRateMsg : List Char :=
  "Claude API rate limit exceeded. Please wait a few minutes before trying again.".data

/-- The Claude switch-providers message (lines 757-766). -/
def claudeSwitchMsg : List Char :=
  ("Your screenshots contain too much information for Claude to process. " ++
   "Switch to OpenAI or Gemini in settings which can handle larger inputs.").data

/-- Anthropic extraction-response parsing (lines 742-773): a JSON parse
failure throws a SyntaxError into the provider-level catch.  A SyntaxError
carries no HTTP status, so the 429 and 413 status branches cannot fire, but
the catch also tests `error.message.includes("token")` (line 759) — and V8
SyntaxError messages often read `Unexpected token ...` — so a parse failure
yields the switch-providers message when the engine message contains
"token", and the generic Anthropic message otherwise.  `parseErrMsg` is the
engine's SyntaxError-message oracle. -/
def anthropicParseExtraction (jsonParse : List Char → Option ProblemInfo)
    (parseErrMsg : List Char → List Char)
    (responseText : List Char) : Except (List Char) ProblemInfo :=
  let jsonText := trimChars (stripFences responseText)
  match jsonParse jsonText with
  | some pinfo => .ok pinfo
  | none =>
    .error (if containsB "token".data (parseErrMsg jsonText) then claudeSwitchMsg
            else anthropicExtractFailMsg)

/-- The always-failing `JSON.parse` oracle (stands for malformed JSON). -/
def parseNone : List Char → Option ProblemInfo := fun _ => none

/-- A V8-style SyntaxError-message oracle: for most malformed inputs,
Node/Electron's `JSON.parse` reports `Unexpected token ...`. -/
def v8TokenErr : List Char → List Char :=
  fun _ => "Unexpected token x in JSON at position 1".data

/-- A SyntaxError-message oracle for the parse errors whose V8 message does
not mention a token (e.g. `Expected property name ...`). -/
def plainParseErr : List Char → List Char :=
  fun _ => "Expected property name in JSON at position 1".data

/-- Concrete malformed extraction text for C2: starts with a brace, is not an
apology, and is not valid JSON. -/
def c2text : List Char := [obrace] ++ "x".data

/-- C2 counterexample: on malformed JSON (every parse fails), the Gemini and
Anthropic extraction parsers FAIL with provider catch messages instead of
synthesizing a ProblemInfo — the claimed never-fail behaviour holds only for
OpenAI.  For Anthropic the failure message even depends on the engine text:
a V8 `Unexpected token ...` SyntaxError yields the switch-providers message,
any other message the generic Anthropic one. -/
theorem C2_gemini_anthropic_fail_cex :
    apology.isPrefixOf (trimChars (stripFences c2text)) = false ∧
    containsB [obrace] (trimChars (stripFences c2text)) = true ∧
    parseNone (trimChars (stripFences c2text)) = none ∧
    geminiParseExtraction parseNone c2text = .error geminiExtractFailMsg ∧
    anthropicParseExtraction parseNone v8TokenErr c2text = .error claudeSwitchMsg ∧
    anthropicParseExtraction parseNone plainParseErr c2text =
      .error anthropicExtractFailMsg ∧
    claudeSwitchMsg ≠ anthropicExtractFailMsg ∧
    openaiParseExtraction parseNone c2text "python".data =
      .ok (synthProblemInfo c2text "python".data) := by
  refine ⟨by decide, by decide, rfl, rfl, rfl, rfl, by decide, rfl⟩

/-- C2 (amended): when the fencing-stripped text does not start with an
apology, contains a brace, and strict JSON parsing fails, the OPENAI parser
synthesizes the ProblemInfo (raw text, literal placeholders, configured
default language) and never fails; the GEMINI parser fails with its generic
provider message; the ANTHROPIC parser also fails — with the
switch-providers message when the SyntaxError text contains "token"
(the usual V8 wording), and with the generic Anthropic message otherwise —
and never synthesizes. -/
theorem C2_parse_failure_behavior (jsonParse : List Char → Option ProblemInfo)
    (parseErrMsg : List Char → List Char) (responseText language : List Char)
    (hap : apology.isPrefixOf (trimChars (stripFences responseText)) = false)
    (hbr : containsB [obrace] (trimChars (stripFences responseText)) = true)
    (hpf : jsonParse (trimChars (stripFences responseText)) = none) :
    openaiParseExtraction jsonParse responseText language =
      .ok (synthProblemInfo responseText language) ∧
    geminiParseExtraction jsonParse responseText = .error geminiExtractFailMsg ∧
    anthropicParseExtraction jsonParse parseErrMsg responseText =
      .error (if containsB "token".data
                  (parseErrMsg (trimChars (stripFences responseText)))
              then claudeSwitchMsg else anthropicExtractFailMsg) ∧
    (∀ pinfo, anthropicParseExtraction jsonParse parseErrMsg responseText ≠ .ok pinfo) := by
  have hanth : anthropicParseExtraction jsonParse parseErrMsg responseText =
      .error (if containsB "token".data
                  (parseErrMsg (trimChars (stripFences responseText)))
              then claudeSwitchMsg else anthropicExtractFailMsg) := by
    rw [anthropicParseExtraction, hpf]
  refine ⟨?_, ?_, hanth, ?_⟩
  · rw [openaiParseExtraction]
    simp only [hap, hbr, hpf]
    simp
  · rw [geminiParseExtraction, hpf]
  · intro pinfo hcon
    rw [hanth] at hcon
    exact absurd hcon (by simp)

/-- Witness for C2 (amended) at the concrete malformed input, under a
V8-style `Unexpected token ...` SyntaxError message. -/
theorem C2_parse_failure_behavior_witness :
    openaiParseExtraction parseNone c2text "python".data =
      .ok (synthProblemInfo c2text "python".data) ∧
    geminiParseExtraction parseNone c2text = .error geminiExtractFailMsg ∧
    anthropicParseExtraction parseNone v8TokenErr c2text =
      .error (if containsB "token".data
                  (v8TokenErr (trimChars (stripFences c2text)))
              then claudeSwitchMsg else anthropicExtractFailMsg) :=
  have h := C2_parse_failure_behavior parseNone v8TokenErr c2text "python".data
    (by decide) (by decide) rfl
  ⟨h.1, h.2.1, h.2.2.1⟩

/-! The orchestration model: providers, errors, UI events, abort signals. -/

/-- The three interchangeable LLM backends. -/
inductive Provider | openai | gemini | anthropic
deriving DecidableEq, Repr

/-- An error from a provider call, as the source's catch blocks observe it:
the axios cancellation flag, an optional HTTP response status, an optional
message text. -/
structure ApiError where
  isCancel : Bool
  status : Option Nat
  message : Option (List Char)
deriving DecidableEq, Repr

/-- Events sent over the UI notification channel during a main cycle. -/
inductive UiEvent
  | progress (n : Nat)
  | problemExtracted (pinfo : ProblemInfo)
  | solutionSuccess (r : SolutionResult)
  | initialSolutionError (msg : List Char)
  | apiKeyInvalid
  | noScreenshots
deriving DecidableEq, Repr

/-- The user-facing cancellation message (lines 830, 339). -/
def canceledMsg : List Char := "Processing was canceled by the user.".data

/-- The catch block of `processScreenshotsHelper` (lines 825-858): axios
cancellation first, then status-specific messages, then message passthrough
with a generic default (JavaScript `||`, so an empty message also falls
through to the default). -/
def classifyMainError (e : ApiError) : List Char :=
  if e.isCancel then canceledMsg
  else if e.status = some 401 then
    "Invalid OpenAI API key. Please check your settings.".data
  else if e.status = some 429 then
    "OpenAI API rate limit exceeded or insufficient credits. Please try again later.".data
  else if e.status = some 500 then
    "OpenAI server error. Please try again later.".data
  else match e.message with
    | some m => if m.isEmpty then "Failed to process screenshots. Please try again.".data else m
    | none => "Failed to process screenshots. Please try again.".data

/-- The catch block of `generateSolutionsHelper` (lines 1252-1278); note there
is no 500 branch here and the default message differs. -/
def classifySolutionError (e : ApiError) : List Char :=
  if e.isCancel then canceledMsg
  else if e.status = some 401 then
    "Invalid OpenAI API key. Please check your settings.".data
  else if e.status = some 429 then
    "OpenAI API rate limit exceeded or insufficient credits. Please try again later.".data
  else match e.message with
    | some m => if m.isEmpty then "Failed to generate solution".data else m
    | none => "Failed to generate solution".data

/-- The Anthropic provider catch blocks (lines 747-773, 1054-1080, 1566-1592):
429 maps to a rate-limit message, 413 or a message containing "token" maps to
a switch-providers message, anything else to the given generic message. -/
def anthropicCatch (e : ApiError) (generic : List Char) : List Char :=
  if e.status = some 429 then claudeRateMsg
  else if e.status = some 413 ||
      (match e.message with | some m => containsB "token".data m | none => false) then
    claudeSwitchMsg
  else generic

/-- A JSON.parse SyntaxError reaches the Anthropic catch with no HTTP status:
the catch then reduces to the `message.includes("token")` test.  This links
the inlined branch of `anthropicParseExtraction` to the full catch model. -/
theorem anthropicCatch_parse_error (m g : List Char) :
    anthropicCatch ⟨false, none, some m⟩ g =
      if containsB "token".data m then claudeSwitchMsg else g := by
  simp [anthropicCatch]

/-! Abort-signal plumbing (C10): which call sites pass `{ signal }`. -/

/-- Whether a provider call site passes the workflow AbortSignal on to the
transport. -/
structure CallSpec where
  passesSignal : Bool
deriving DecidableEq, Repr

/-- OpenAI extraction call (lines 547-553): options carry only model,
messages, max_tokens, temperature — no signal. -/
def openaiExtractionCall : CallSpec := ⟨false⟩

/-- OpenAI solution call (lines 949-962): no signal. -/
def openaiSolutionCall : CallSpec := ⟨false⟩

/-- OpenAI debug call (lines 1374-1379): no signal. -/
def openaiDebugCall : CallSpec := ⟨false⟩

/-- Gemini extraction call (lines 642-654): axios options `{ signal }`. -/
def geminiExtractionCall : CallSpec := ⟨true⟩

/-- Gemini solution call (lines 988-1000): axios options `{ signal }`. -/
def geminiSolutionCall : CallSpec := ⟨true⟩

/-- Gemini debug call (lines 1440-1452): axios options `{ signal }`. -/
def geminiDebugCall : CallSpec := ⟨true⟩

/-- Anthropic extraction call (lines 735-740): no signal. -/
def anthropicExtractionCall : CallSpec := ⟨false⟩

/-- Anthropic solution call (lines 1044-1049): no signal. -/
def anthropicSolutionCall : CallSpec := ⟨false⟩

/-- Anthropic debug call (lines 1557-1562): no signal. -/
def anthropicDebugCall : CallSpec := ⟨false⟩

/-- The error axios produces for a request aborted through its signal. -/
def cancelError : ApiError := ⟨true, none, some "canceled".data⟩

/-- Transport semantics: a call whose site passes the signal fails with the
axios cancellation error when the signal is aborted; otherwise (and for all
sites that do not pass the signal) the network oracle decides the outcome. -/
def runCall (spec : CallSpec) (signalAborted : Bool)
    (net : Except ApiError (List Char)) : Except ApiError (List Char) :=
  if spec.passesSignal && signalAborted then .error cancelError else net

/-- C10: the OpenAI and Anthropic extraction, solution and debug calls never
receive the workflow AbortSignal — only the three Gemini HTTP calls pass
`{ signal }` — so for OpenAI and Anthropic the call result is independent of
whether the cancellation handle has been triggered, while a triggered handle
forces every Gemini call to the cancellation error. -/
theorem C10_signal_independence :
    (∀ (a b : Bool) (net : Except ApiError (List Char)),
      runCall openaiExtractionCall a net = runCall openaiExtractionCall b net ∧
      runCall openaiSolutionCall a net = runCall openaiSolutionCall b net ∧
      runCall openaiDebugCall a net = runCall openaiDebugCall b net ∧
      runCall anthropicExtractionCall a net = runCall anthropicExtractionCall b net ∧
      runCall anthropicSolutionCall a net = runCall anthropicSolutionCall b net ∧
      runCall anthropicDebugCall a net = runCall anthropicDebugCall b net) ∧
    (∀ net : Except ApiError (List Char),
      runCall geminiExtractionCall true net = .error cancelError ∧
      runCall geminiSolutionCall true net = .error cancelError ∧
      runCall geminiDebugCall true net = .error cancelError) := by
  constructor
  · intro a b net
    refine ⟨rfl, rfl, rfl, rfl, rfl, rfl⟩
  · intro net
    refine ⟨rfl, rfl, rfl⟩

/-! Cancellation and the orchestrator state (C5, C9). -/

/-- The main window view state. -/
inductive View | queue | solutions | debug
deriving DecidableEq, Repr

/-- The process-wide state visible to `cancelOngoingRequests`: the two
single-slot abort controllers, the hasDebugged flag and the stored
ProblemInfo (the fields it writes), plus the fields it must not touch — the
view, the two screenshot queues, window liveness, and client readiness. -/
structure OrchestratorState where
  mainAbortController : Option Unit
  extraAbortController : Option Unit
  hasDebugged : Bool
  problemInfo : Option ProblemInfo
  view : View
  screenshotQueue : List (List Char)
  extraScreenshotQueue : List (List Char)
  windowAlive : Bool
  clientReady : Bool
deriving DecidableEq, Repr

/-- The outcome of the cancel operation: the new state, the events emitted,
and whether `abort()` was invoked on each controller. -/
structure CancelOutcome where
  state : OrchestratorState
  events : List UiEvent
  abortedMain : Bool
  abortedExtra : Bool
deriving DecidableEq, Repr

/-- `cancelOngoingRequests` (lines 1657-1680): abort and clear each present
controller, unconditionally reset `hasDebugged` and clear the stored
ProblemInfo, and emit NO_SCREENSHOTS exactly when something was in flight and
the window is alive (`mainWindow && !mainWindow.isDestroyed()`). -/
def cancelOngoingRequests (s : OrchestratorState) : CancelOutcome :=
  let wasMain := s.mainAbortController.isSome
  let wasExtra := s.extraAbortController.isSome
  let wasCancelled := wasMain || wasExtra
  let s2 := { s with
    mainAbortController := (none : Option Unit)
    extraAbortController := (none : Option Unit)
    hasDebugged := false
    problemInfo := (none : Option ProblemInfo) }
  { state := s2
    events := if wasCancelled && s.windowAlive then [UiEvent.noScreenshots] else []
    abortedMain := wasMain
    abortedExtra := wasExtra }

/-- C9: `cancelOngoingRequests` always sets hasDebugged to false and clears
the stored ProblemInfo, unconditionally — even when nothing is in flight;
only the NO_SCREENSHOTS emission is conditional (on something having been in
flight, with a live window); and no field besides the two abort-controller
slots, hasDebugged and problemInfo is modified. -/
theorem C9_cancel_frame (s : OrchestratorState) :
    (cancelOngoingRequests s).state.hasDebugged = false ∧
    (cancelOngoingRequests s).state.problemInfo = none ∧
    (cancelOngoingRequests s).state.mainAbortController = none ∧
    (cancelOngoingRequests s).state.extraAbortController = none ∧
    (cancelOngoingRequests s).state.view = s.view ∧
    (cancelOngoingRequests s).state.screenshotQueue = s.screenshotQueue ∧
    (cancelOngoingRequests s).state.extraScreenshotQueue = s.extraScreenshotQueue ∧
    (cancelOngoingRequests s).state.windowAlive = s.windowAlive ∧
    (cancelOngoingRequests s).state.clientReady = s.clientReady ∧
    (cancelOngoingRequests s).events =
      (if (s.mainAbortController.isSome || s.extraAbortController.isSome) && s.windowAlive
       then [UiEvent.noScreenshots] else []) :=
  ⟨rfl, rfl, rfl, rfl, rfl, rfl, rfl, rfl, rfl, rfl⟩

/-! The main processing cycle (C5, C6, C7). -/

/-- The orchestrator's API-key-related test on a failure message
(lines 305-309): contains "API Key", "OpenAI" or "Gemini". -/
def apiKeyRelated (msg : List Char) : Bool :=
  containsB "API Key".data msg || containsB "OpenAI".data msg ||
  containsB "Gemini".data msg

/-- The result-failure branch of `processScreenshots` (lines 303-322): one
classified terminal notification, then the view resets to the queue. -/
def handleMainFailure (msg : List Char) : List UiEvent × View :=
  (if apiKeyRelated msg then [UiEvent.apiKeyInvalid]
   else [UiEvent.initialSolutionError msg],
   View.queue)

/-- The extraction phase of `processScreenshotsHelper` per provider, as a
function of the provider call's outcome.  OpenAI call errors propagate to the
helper catch (`classifyMainError`); Gemini's inner catch swallows every error
(including cancellation) into its generic message; Anthropic's inner catch
maps statuses. -/
def extractStage (p : Provider) (jsonParse : List Char → Option ProblemInfo)
    (parseErrMsg : List Char → List Char)
    (language : List Char) (resp : Except ApiError (List Char)) :
    Except (List Char) ProblemInfo :=
  match p, resp with
  | .openai, .error e => .error (classifyMainError e)
  | .openai, .ok t => openaiParseExtraction jsonParse t language
  | .gemini, .error _ => .error geminiExtractFailMsg
  | .gemini, .ok t => geminiParseExtraction jsonParse t
  | .anthropic, .error e => .error (anthropicCatch e anthropicExtractFailMsg)
  | .anthropic, .ok t => anthropicParseExtraction jsonParse parseErrMsg t

/-- The generic Gemini solution-generation failure message (line 1017). -/
def geminiSolutionFailMsg : List Char :=
  "Failed to generate solution with Gemini API. Please check your API key or try again later.".data

/-- The generic Anthropic solution-generation failure message (line 1078). -/
def anthropicSolutionFailMsg : List Char :=
  "Failed to generate solution with Anthropic API. Please check your API key or try again later.".data

/-- The provider call of `generateSolutionsHelper` with its per-provider error
mapping (lines 939-1081): OpenAI errors propagate to the solution catch at
1252; Gemini's inner catch returns its generic message for ANY error,
including cancellation; Anthropic's inner catch maps statuses.  A failure
message is re-thrown at line 818 as a plain Error and caught at 825, which
passes the message through unchanged. -/
def solutionStage (p : Provider) (resp : Except ApiError (List Char)) :
    Except (List Char) (List Char) :=
  match p, resp with
  | .openai, .error e => .error (classifySolutionError e)
  | .gemini, .error _ => .error geminiSolutionFailMsg
  | .anthropic, .error e => .error (anthropicCatch e anthropicSolutionFailMsg)
  | _, .ok t => .ok t

/-- One main-workflow processing cycle after input validation, with a live
window: the helper runs extraction then solution generation, emitting the
progress/problem-extracted/solution-success events of lines 473-816, and the
orchestrator handles a failure result per lines 303-322.  Provider call
outcomes and parsing oracles are inputs. -/
def runMainCycle (p : Provider) (jsonParse : List Char → Option ProblemInfo)
    (parseErrMsg : List Char → List Char) (language : List Char)
    (extractResp solutionResp : Except ApiError (List Char))
    (thoughts : List (List Char)) (timeCapture spaceCapture : Option (List Char))
    (conversationId : Option (List Char)) : List UiEvent × View :=
  match extractStage p jsonParse parseErrMsg language extractResp with
  | .error msg =>
    let h := handleMainFailure msg
    (UiEvent.progress 20 :: h.1, h.2)
  | .ok pinfo =>
    match solutionStage p solutionResp with
    | .error msg =>
      let h := handleMainFailure msg
      ([UiEvent.progress 20, UiEvent.progress 40, UiEvent.problemExtracted pinfo,
        UiEvent.progress 60] ++ h.1, h.2)
    | .ok content =>
      let result := formatSolution content thoughts timeCapture spaceCapture conversationId
      ([UiEvent.progress 20, UiEvent.progress 40, UiEvent.problemExtracted pinfo,
        UiEvent.progress 60, UiEvent.progress 100, UiEvent.solutionSuccess result],
       View.solutions)

/-- The terminal notifications of a main cycle: API-key-invalid, solution
error, or solution success. -/
def isTerminal : UiEvent → Bool
  | .apiKeyInvalid => true
  | .initialSolutionError _ => true
  | .solutionSuccess _ => true
  | _ => false

/-- C6: when a main-workflow processing cycle fails, the orchestrator emits
the API-key-invalid notification exactly when the error text is
API-key-related (the source's test: contains "API Key", "OpenAI" or
"Gemini"), and otherwise emits the solution-error notification carrying the
error message; in both cases the view is reset to the initial queue state. -/
theorem C6_error_classification (msg : List Char) :
    ((handleMainFailure msg).1 = [UiEvent.apiKeyInvalid] ↔ apiKeyRelated msg = true) ∧
    ((handleMainFailure msg).1 = [UiEvent.initialSolutionError msg] ↔
      apiKeyRelated msg = false) ∧
    (handleMainFailure msg).2 = View.queue := by
  by_cases h : apiKeyRelated msg <;> simp [handleMainFailure, h]

theorem handleMainFailure_one_terminal (msg : List Char) :
    (((handleMainFailure msg).1).filter isTerminal).length = 1 := by
  by_cases h : apiKeyRelated msg <;> simp [handleMainFailure, h, isTerminal]

/-- C7: in every main-workflow cycle in which a provider or network failure
occurs — the extraction call fails, or extraction succeeds and the solution
call fails — the orchestrator classifies the failure and emits exactly one
terminal notification, never zero and never more than one. -/
theorem C7_exactly_one_terminal (p : Provider)
    (jsonParse : List Char → Option ProblemInfo)
    (parseErrMsg : List Char → List Char) (language : List Char)
    (extractResp solutionResp : Except ApiError (List Char))
    (thoughts : List (List Char)) (tc sc cid : Option (List Char)) (e : ApiError) :
    (extractResp = .error e →
      (((runMainCycle p jsonParse parseErrMsg language extractResp solutionResp
          thoughts tc sc cid).1).filter isTerminal).length = 1) ∧
    (∀ pinfo, extractStage p jsonParse parseErrMsg language extractResp = .ok pinfo →
      solutionResp = .error e →
      (((runMainCycle p jsonParse parseErrMsg language extractResp solutionResp
          thoughts tc sc cid).1).filter isTerminal).length = 1) := by
  have key : ∀ msg : List Char,
      ((UiEvent.progress 20 :: (handleMainFailure msg).1).filter isTerminal).length = 1 := by
    intro msg
    rw [List.filter_cons]
    simp only [isTerminal, Bool.false_eq_true, if_false, reduceIte]
    exact handleMainFailure_one_terminal msg
  have key2 : ∀ (msg : List Char) (pi2 : ProblemInfo),
      (((UiEvent.progress 20 :: UiEvent.progress 40 :: UiEvent.problemExtracted pi2 ::
        UiEvent.progress 60 :: (handleMainFailure msg).1).filter isTerminal)).length = 1 := by
    intro msg pi2
    simp only [List.filter_cons, isTerminal, Bool.false_eq_true, if_false, reduceIte]
    exact handleMainFailure_one_terminal msg
  constructor
  · intro he
    subst he
    cases p <;> simp [runMainCycle, extractStage, key]
  · intro pinfo hok hsol
    subst hsol
    cases p <;> simp [runMainCycle, hok, solutionStage, key2]

/-- Witness for C7: a cancelled Gemini extraction call still yields exactly
one terminal notification. -/
theorem C7_exactly_one_terminal_witness :
    (((runMainCycle Provider.gemini parseNone plainParseErr "python".data
        (.error cancelError) (.ok "x".data) [] none none none).1).filter
        isTerminal).length = 1 :=
  (C7_exactly_one_terminal Provider.gemini parseNone plainParseErr "python".data
    (.error cancelError) (.ok "x".data) [] none none none cancelError).1 rfl

/-- C5 counterexample: with a request in flight, cancel aborts it, but the
aborted Gemini extraction call (the only kind of call that receives the
signal) is caught by Gemini's inner catch and resolves as the generic Gemini
failure message — which is API-key-related, so the cycle surfaces
API_KEY_INVALID — never as the `Processing was canceled by the user.`
message the claim requires. -/
theorem C5_cancel_resolution_cex :
    runCall geminiExtractionCall true (.ok "ignored".data) = .error cancelError ∧
    extractStage Provider.gemini parseNone plainParseErr "python".data
      (.error cancelError) = .error geminiExtractFailMsg ∧
    geminiExtractFailMsg ≠ canceledMsg ∧
    apiKeyRelated geminiExtractFailMsg = true ∧
    (runMainCycle Provider.gemini parseNone plainParseErr "python".data
      (.error cancelError) (.ok "x".data) [] none none none).1 =
      [UiEvent.progress 20, UiEvent.apiKeyInvalid] ∧
    (UiEvent.initialSolutionError canceledMsg) ∉
      (runMainCycle Provider.gemini parseNone plainParseErr "python".data
        (.error cancelError) (.ok "x".data) [] none none none).1 := by
  refine ⟨rfl, rfl, by decide, by decide, rfl, by decide⟩

/-- C5 (amended): cancelling with no request in flight is a no-op that emits
no notification and aborts nothing; cancelling with a request in flight
invokes abort on the handle and emits exactly one NO_SCREENSHOTS
notification (window alive).  The abort, however, only reaches Gemini call
sites (the only ones passing the signal), and an aborted Gemini call resolves
as the generic Gemini failure message, not as the canceled message; the
canceled-message mapping lives only in the outer catch (`classifyMainError`),
which Gemini's inner catch shields. -/
theorem C5_cancel_behavior (s : OrchestratorState) (hw : s.windowAlive = true) :
    ((s.mainAbortController = none ∧ s.extraAbortController = none) →
      (cancelOngoingRequests s).events = [] ∧
      (cancelOngoingRequests s).abortedMain = false ∧
      (cancelOngoingRequests s).abortedExtra = false) ∧
    (s.mainAbortController.isSome = true →
      (cancelOngoingRequests s).events = [UiEvent.noScreenshots] ∧
      (cancelOngoingRequests s).abortedMain = true) ∧
    (∀ net, runCall geminiExtractionCall true net = .error cancelError) ∧
    (∀ (jsonParse : List Char → Option ProblemInfo)
        (parseErrMsg : List Char → List Char) (language : List Char),
      extractStage Provider.gemini jsonParse parseErrMsg language (.error cancelError) =
        .error geminiExtractFailMsg) ∧
    classifyMainError cancelError = canceledMsg ∧
    geminiExtractFailMsg ≠ canceledMsg := by
  refine ⟨?_, ?_, fun net => rfl, fun _ _ _ => rfl, rfl, by decide⟩
  · rintro ⟨h1, h2⟩
    refine ⟨?_, ?_, ?_⟩ <;> simp [cancelOngoingRequests, h1, h2]
  · intro h
    refine ⟨?_, ?_⟩ <;> simp [cancelOngoingRequests, h, hw]

/-- A concrete orchestrator state with a main request in flight. -/
def c5state : OrchestratorState :=
  { mainAbortController := some ()
    extraAbortController := none
    hasDebugged := true
    problemInfo := none
    view := View.solutions
    screenshotQueue := []
    extraScreenshotQueue := []
    windowAlive := true
    clientReady := true }

/-- Witness for C5 (amended) at the concrete in-flight state. -/
theorem C5_cancel_behavior_witness :
    (cancelOngoingRequests c5state).events = [UiEvent.noScreenshots] ∧
    (cancelOngoingRequests c5state).abortedMain = true :=
  (C5_cancel_behavior c5state rfl).2.1 rfl

end LiveCue
